import Mathlib

/-!
# VideoGadjo — verification of the media pipeline core

Shallow embedding of the ingestion/processing core of the VideoGadjo server
(`src/server.js`) and its browser client (`src/public/js/app.js`):

* filename heuristics (`parseFilenameDate`, `detectVideoSource`),
* the transcoder adapter (`generateProxy`, `generateThumbnail`) modelled over
  an explicit subprocess outcome,
* the per-clip processing pipeline (`generateProxyLocally`),
* the in-memory store (`localStore`) with JS-`Map` semantics,
* the mark/export routes and the export summary computation,
* the chronological ranking (`getBestDate`, `sortVideos`),
* the bounded debug log buffer (`log` / `memoryLogs`).

Numeric conventions: seconds and durations are rationals (`ℚ`); timestamps are
integers (milliseconds of local civil time, i.e. the value of a JS `Date`
with the timezone offset ignored).  JS `Array.prototype.sort` is stable per
ECMA-262, and is modelled by `List.mergeSort`.
-/

namespace VideoGadjo

/-- One in/out range on a clip, as stored by the marks route of `server.js`. -/
structure Mark where
  id : String
  video_id : String
  in_point : ℚ
  out_point : ℚ
  created_at : String
  deriving DecidableEq, Repr

/-- One uploaded clip, as stored in `localStore.videos` (`server.js`, upload
route).  Nullable JS fields are `Option`s; `upload_date` is always present. -/
structure Video where
  id : String
  project_id : String
  original_filename : String
  source : String
  duration : ℚ
  filename_date : Option ℤ
  metadata_date : Option ℤ
  upload_date : ℤ
  order_index : ℤ
  included : Bool
  processing_status : String
  proxy_url : Option String
  thumbnail_url : Option String
  marks : List Mark
  deriving DecidableEq, Repr

/-! ## JS `Map` semantics

`localStore` keeps `videos` and `marks` in JS `Map`s.  A `Map` preserves
insertion order, `set` overwrites in place, `delete` removes the entry.  Keys
are unique, so the association-list operations below are exact. -/

/-- JS `Map.get`: the value at the first (only) occurrence of the key. -/
def mapGet {α : Type} : List (String × α) → String → Option α
  | [], _ => none
  | (k', v') :: rest, k => if k' = k then some v' else mapGet rest k

/-- JS `Map.set`: overwrite in place if the key is present, else append. -/
def mapSet {α : Type} : List (String × α) → String → α → List (String × α)
  | [], k, v => [(k, v)]
  | (k', v') :: rest, k, v =>
    if k' = k then (k, v) :: rest else (k', v') :: mapSet rest k v

/-- JS `Map.delete`: remove the entry with the key, if present. -/
def mapDelete {α : Type} : List (String × α) → String → List (String × α)
  | [], _ => []
  | (k', v') :: rest, k => if k' = k then rest else (k', v') :: mapDelete rest k

/-- The in-memory store of local mode (`localStore` in `server.js`), restricted
to the two collections the verified routes touch. -/
structure Store where
  videos : List (String × Video)
  marks : List (String × Mark)
  deriving DecidableEq

/-! ## Chronological ranking (`app.js`: `getBestDate`, `sortVideos`) -/

/-- Function `getBestDate(video)` from `app.js`: technical metadata date if present,
else filename date, else the upload date.  (In JS the stored strings are
truthy exactly when set; `Option` models that.) -/
def getBestDate (video : Video) : ℤ :=
  match video.metadata_date with
  | some d => d
  | none =>
    match video.filename_date with
    | some d => d
    | none => video.upload_date

/-- The four selectable sort modes of `sortVideos` in `app.js`. -/
inductive SortMode
  | smart
  | upload
  | filename
  | manual
  deriving DecidableEq, Repr

/-- The comparator of each sort mode, as a boolean "less or equal".  The JS
comparators return `keyA - keyB` (resp. `localeCompare`); a stable sort with
such a comparator places `a` no later than `b` iff `key a ≤ key b`. -/
def sortLe (mode : SortMode) (a b : Video) : Bool :=
  match mode with
  | .smart => getBestDate a ≤ getBestDate b
  | .upload => a.upload_date ≤ b.upload_date
  | .filename => a.original_filename ≤ b.original_filename
  | .manual => a.order_index ≤ b.order_index

/-- Function `sortVideos` from `app.js`: a stable sort of the clip list under the
selected mode's comparator (`Array.prototype.sort` is stable per ECMA-262). -/
def sortVideos (mode : SortMode) (videos : List Video) : List Video :=
  videos.mergeSort (sortLe mode)

/-! ## Debug log buffer (`server.js`: `MAX_LOGS`, `memoryLogs`, `log`) -/

/-- One entry of `memoryLogs` (timestamp, type, message — all strings). -/
structure LogRecord where
  timestamp : String
  kind : String
  message : String
  deriving DecidableEq, Repr

/-- The `MAX_LOGS` constant of `server.js`. -/
def MAX_LOGS : Nat := 100

/-- The state change of `log(message, type)` on `memoryLogs`: `unshift` the
new entry, then `pop` the last entry when the length exceeds `MAX_LOGS`. -/
def logPush (entry : LogRecord) (memoryLogs : List LogRecord) : List LogRecord :=
  let l := entry :: memoryLogs
  if l.length > MAX_LOGS then l.dropLast else l

/-- The states `memoryLogs` can reach: it starts `[]` and every mutation is a
`logPush`. -/
inductive LogsReachable : List LogRecord → Prop
  | init : LogsReachable []
  | step (e : LogRecord) (l : List LogRecord) :
      LogsReachable l → LogsReachable (logPush e l)

/-! ## Export summary (`app.js`: `showExportModal`; `server.js`:
`processExportLocally`)

`showExportModal` filters the clips to `processing_status === 'ready' &&
included`, counts their marks, and accumulates the total duration: each mark
contributes `out_point - in_point`; a markless clip contributes its duration
when that is truthy (non-zero).  `processExportLocally` applies the same
`included`/`ready` filter server-side. -/

/-- The filter of `showExportModal` / `processExportLocally`: a clip takes
part in the export exactly when it is `ready` and `included`. -/
def isExportReady (v : Video) : Bool :=
  v.processing_status = "ready" && v.included

/-- The `readyVideos` array of `showExportModal`. -/
def readyVideos (videos : List Video) : List Video :=
  videos.filter isExportReady

/-- A mark's contribution to the export duration: `out_point - in_point`. -/
def markDuration (m : Mark) : ℚ :=
  m.out_point - m.in_point

/-- The `totalMarks` count of `showExportModal`: marks of the ready, included clips. -/
def exportTotalMarks (videos : List Video) : Nat :=
  ((readyVideos videos).map (fun v => v.marks.length)).sum

/-- One clip's contribution to `totalDuration` in `showExportModal`: the sum
of its mark durations when it has marks, else its duration when truthy. -/
def videoExportDuration (v : Video) : ℚ :=
  if v.marks ≠ [] then (v.marks.map markDuration).sum
  else if v.duration ≠ 0 then v.duration
  else 0

/-- The `totalDuration` accumulator of `showExportModal`. -/
def exportTotalDuration (videos : List Video) : ℚ :=
  ((readyVideos videos).map videoExportDuration).sum

/-- Spec-side per-clip contribution (§4.6 of the spec, stated in the spec's
words): an included, ready clip contributes its marks' durations when it has
marks and its whole duration otherwise; other clips contribute nothing. -/
def specClipContribution (v : Video) : ℚ :=
  if v.processing_status = "ready" ∧ v.included = true then
    (if v.marks = [] then v.duration else (v.marks.map markDuration).sum)
  else 0

/-! ## Filename heuristics (`server.js`: `parseFilenameDate`,
`detectVideoSource`)

The five date patterns and the five device conventions are fixed regular
expressions made of literals, single-character classes and fixed-width digit
groups, so deterministic leftmost-match search over the character list is
exactly the JS `String.match` semantics for them.  `\d` is `[0-9]`; the `/i`
flag is case folding, modelled by ASCII `toUpper` (the patterns' letters are
all ASCII). -/

/-- One token of a pattern: a literal (folded when the pattern carries the
`/i` flag), a capturing group of exactly `n` digits, or a non-capturing
single-character class. -/
inductive Tok
  | lit (s : String)
  | digits (n : Nat)
  | cls (cs : List Char)
  deriving DecidableEq, Repr

/-- A pattern: its tokens and its `/i` flag. -/
structure Pattern where
  toks : List Tok
  ci : Bool
  deriving DecidableEq, Repr

/-- Class `\d` of JS regexes: exactly the ASCII digits. -/
def isAsciiDigit (c : Char) : Bool :=
  '0' ≤ c && c ≤ '9'

/-- Consume exactly `n` digits, returning them and the rest. -/
def takeDigits : Nat → List Char → Option (List Char × List Char)
  | 0, cs => some ([], cs)
  | _ + 1, [] => none
  | n + 1, c :: cs =>
    if isAsciiDigit c then (takeDigits n cs).map (fun p => (c :: p.1, p.2))
    else none

/-- Literal character comparison, case-folded under the `/i` flag. -/
def charEq (ci : Bool) (p c : Char) : Bool :=
  if ci then p.toUpper = c.toUpper else p = c

/-- Consume a literal. -/
def matchLit (ci : Bool) : List Char → List Char → Option (List Char)
  | [], cs => some cs
  | _ :: _, [] => none
  | p :: ps, c :: cs => if charEq ci p c then matchLit ci ps cs else none

/-- Match the tokens at the head of the input, collecting the capture groups
(the digit groups, in order). -/
def matchToksAt (ci : Bool) : List Tok → List Char → Option (List String)
  | [], _ => some []
  | .lit s :: ts, cs => (matchLit ci s.data cs).bind (matchToksAt ci ts)
  | .digits n :: ts, cs =>
    (takeDigits n cs).bind fun p =>
      (matchToksAt ci ts p.2).map fun gs => (⟨p.1⟩ : String) :: gs
  | .cls _ :: _, [] => none
  | .cls ks :: ts, c :: cs =>
    if ks.contains c then matchToksAt ci ts cs else none

/-- JS `filename.match(pattern)`: the capture groups of the leftmost match (all
tokens are fixed-width and deterministic, so trying each start position left
to right is exact). -/
def searchPattern (p : Pattern) : List Char → Option (List String)
  | [] => matchToksAt p.ci p.toks []
  | c :: cs =>
    match matchToksAt p.ci p.toks (c :: cs) with
    | some gs => some gs
    | none => searchPattern p cs

/-- Class `[-_]` of the third date pattern. -/
def sepDashUnderscore : List Char := ['-', '_']

/-- Class `[-_\s]` of the third date pattern (`\s`: ECMAScript whitespace; the
common code points suffice for filenames). -/
def sepDashUnderscoreSpace : List Char :=
  ['-', '_', ' ', '\t', '\n', '\x0B', '\x0C', '\r', '\u00A0', '\uFEFF']

/-- Pattern `VID_(\d{4})(\d{2})(\d{2})_(\d{2})(\d{2})(\d{2})` with `/i`. -/
def patVidUnderscore : Pattern :=
  ⟨[.lit "VID_", .digits 4, .digits 2, .digits 2, .lit "_", .digits 2,
    .digits 2, .digits 2], true⟩

/-- Pattern `DJI_(\d{4})(\d{2})(\d{2})(\d{2})(\d{2})(\d{2})` with `/i`. -/
def patDji : Pattern :=
  ⟨[.lit "DJI_", .digits 4, .digits 2, .digits 2, .digits 2, .digits 2,
    .digits 2], true⟩

/-- Pattern `(\d{4})[-_](\d{2})[-_](\d{2})[-_\s](\d{2})[-_](\d{2})[-_](\d{2})`. -/
def patSeparated : Pattern :=
  ⟨[.digits 4, .cls sepDashUnderscore, .digits 2, .cls sepDashUnderscore,
    .digits 2, .cls sepDashUnderscoreSpace, .digits 2,
    .cls sepDashUnderscore, .digits 2, .cls sepDashUnderscore, .digits 2],
   false⟩

/-- Pattern `(\d{4})(\d{2})(\d{2})_(\d{2})(\d{2})(\d{2})`. -/
def patCompact : Pattern :=
  ⟨[.digits 4, .digits 2, .digits 2, .lit "_", .digits 2, .digits 2,
    .digits 2], false⟩

/-- Pattern `VID-(\d{4})(\d{2})(\d{2})-WA` with `/i` (three capture groups only). -/
def patWhatsApp : Pattern :=
  ⟨[.lit "VID-", .digits 4, .digits 2, .digits 2, .lit "-WA"], true⟩

/-- The patterns array of `parseFilenameDate`, in source order. -/
def filenameDatePatterns : List Pattern :=
  [patVidUnderscore, patDji, patSeparated, patCompact, patWhatsApp]

/-- JS `parseInt` on an all-digit string. -/
def digitsToInt (s : String) : ℤ :=
  s.data.foldl (fun a c => a * 10 + ((c.toNat : ℤ) - ('0'.toNat : ℤ))) 0

/-- Days since 1970-01-01 of a proleptic-Gregorian civil date (`m ∈ 1..12`;
the day may carry any offset, which rolls over). -/
def daysFromCivil (y m d : ℤ) : ℤ :=
  let y' := if m ≤ 2 then y - 1 else y
  let era := Int.fdiv y' 400
  let yoe := y' - era * 400
  let mp := Int.emod (m + 9) 12
  let doy := Int.fdiv (153 * mp + 2) 5 + (d - 1)
  let doe := yoe * 365 + Int.fdiv yoe 4 - Int.fdiv yoe 100 + doy
  era * 146097 + doe - 719468

/-- ECMA-262 `MakeDay(year, month, date)` (0-based month): month overflow
rolls into the year, day overflow into the month — no rejection. -/
def jsMakeDay (year month day : ℤ) : ℤ :=
  let ym := year + Int.fdiv month 12
  let mn := Int.emod month 12
  daysFromCivil ym (mn + 1) 1 + (day - 1)

/-- The two-digit-year rule of the `Date` constructor (`MakeFullYear`). -/
def jsMakeFullYear (y : ℤ) : ℤ :=
  if 0 ≤ y ∧ y ≤ 99 then 1900 + y else y

/-- The time value of `new Date(year, month, day, hour, minute, second)` in
milliseconds of local civil time (0-based month). -/
def jsDateValue (year month day hour minute second : ℤ) : ℤ :=
  jsMakeDay (jsMakeFullYear year) month day * 86400000 +
    hour * 3600000 + minute * 60000 + second * 1000

/-- ECMA-262 `TimeClip`: `getTime()` is `NaN` exactly when the time value falls
outside ±8.64e15 ms, which is what `isNaN(date.getTime())` tests. -/
def jsDateFromComponents (year month day hour minute second : ℤ) : Option ℤ :=
  let tv := jsDateValue year month day hour minute second
  if tv.natAbs ≤ 8640000000000000 then some tv else none

/-- The loop body of `parseFilenameDate`: destructure the groups as
`[year, month, day, hour='00', minute='00', second='00']` and build the
date (JS passes `parseInt(month) - 1`). -/
def groupsToDate (gs : List String) : Option ℤ :=
  match gs with
  | year :: month :: day :: rest =>
    let hour := (rest.get? 0).getD "00"
    let minute := (rest.get? 1).getD "00"
    let second := (rest.get? 2).getD "00"
    jsDateFromComponents (digitsToInt year) (digitsToInt month - 1)
      (digitsToInt day) (digitsToInt hour) (digitsToInt minute)
      (digitsToInt second)
  | _ => none

/-- The pattern loop of `parseFilenameDate`: the first pattern whose match
yields a non-`NaN` date returns; a match whose date is `NaN` falls through
to the next pattern; exhaustion returns `null`. -/
def parseFilenameDateAux (filename : String) : List Pattern → Option ℤ
  | [] => none
  | p :: ps =>
    match searchPattern p filename.data with
    | some gs =>
      match groupsToDate gs with
      | some d => some d
      | none => parseFilenameDateAux filename ps
    | none => parseFilenameDateAux filename ps

/-- Function `parseFilenameDate(filename)` of `server.js`. -/
def parseFilenameDate (filename : String) : Option ℤ :=
  parseFilenameDateAux filename filenameDatePatterns

/-- Pattern `^VID_\d{8}_\d{6}` (tested against the uppercased name). -/
def patAndroid : Pattern :=
  ⟨[.lit "VID_", .digits 8, .lit "_", .digits 6], false⟩

/-- Pattern `^IMG_\d{4}`. -/
def patIphone : Pattern :=
  ⟨[.lit "IMG_", .digits 4], false⟩

/-- Pattern `^G[HOX]\d{6}`. -/
def patGopro : Pattern :=
  ⟨[.lit "G", .cls ['H', 'O', 'X'], .digits 6], false⟩

/-- Pattern `^DJI_`. -/
def patDjiAnchor : Pattern :=
  ⟨[.lit "DJI_"], false⟩

/-- Pattern `^VID-\d{8}-WA`. -/
def patWhatsAppAnchor : Pattern :=
  ⟨[.lit "VID-", .digits 8, .lit "-WA"], false⟩

/-- Anchored (`^`) match of a convention against a name. -/
def matchesAtStart (p : Pattern) (name : String) : Bool :=
  (matchToksAt p.ci p.toks name.data).isSome

/-- JS `String.toUpperCase`, character-wise (the conventions only involve
ASCII letters, for which `Char.toUpper` agrees with JS). -/
def upperName (s : String) : String :=
  ⟨s.data.map Char.toUpper⟩

/-- Function `detectVideoSource(filename)` of `server.js`: uppercase the name, test
the five anchored conventions in order, fall back to `other`. -/
def detectVideoSource (filename : String) : String :=
  let name := upperName filename
  if matchesAtStart patAndroid name then "android"
  else if matchesAtStart patIphone name then "iphone"
  else if matchesAtStart patGopro name then "gopro"
  else if matchesAtStart patDjiAnchor name then "dji"
  else if matchesAtStart patWhatsAppAnchor name then "whatsapp"
  else "other"

/-- The ordered convention table of spec §4.1. -/
def sourceConventions : List (Pattern × String) :=
  [(patAndroid, "android"), (patIphone, "iphone"), (patGopro, "gopro"),
   (patDjiAnchor, "dji"), (patWhatsAppAnchor, "whatsapp")]

/-- Spec-side first-match-wins classification over the convention table. -/
def classifyBySpec : List (Pattern × String) → String → String
  | [], _ => "other"
  | (p, cat) :: rest, name =>
    if matchesAtStart p name then cat else classifyBySpec rest name

/-! ## Transcoder adapter (`server.js`: `generateProxy`, `generateThumbnail`)

Both functions spawn `ffmpeg` and settle their promise from two events: the
`error` event (the subprocess could not be launched) and the `close` event
with the tool's exit code.  `generateProxy` collects the child's stderr and,
on a non-zero exit, logs and reports the last 10 lines of it;
`generateThumbnail` attaches no stderr listener and reports a constant
message, with no `log` call. -/

/-- The observable outcome of one spawned subprocess: a launch failure (the
`error` event, carrying the error's message) or termination with an exit
code and whatever the child wrote to stderr. -/
inductive SpawnOutcome
  | launchFailure (errMessage : String)
  | exited (code : ℤ) (stderr : String)
  deriving DecidableEq, Repr

/-- JS `s.split('\n')` on the character list (JS splits into one more piece than
there are separators; an empty string yields one empty piece). -/
def splitLinesChars : List Char → List (List Char)
  | [] => [[]]
  | c :: cs =>
    if c = '\n' then [] :: splitLinesChars cs
    else
      match splitLinesChars cs with
      | l :: ls => (c :: l) :: ls
      | [] => [[c]]

/-- JS `lines.join('\n')`. -/
def joinLinesChars : List (List Char) → List Char
  | [] => []
  | [l] => l
  | l :: ls => l ++ '\n' :: joinLinesChars ls

/-- JS `stderr.split('\n').slice(-10).join('\n')` from `generateProxy`: the last
(at most) 10 lines of the diagnostic stream. -/
def lastTenLines (stderr : String) : String :=
  let ls := splitLinesChars stderr.data
  ⟨joinLinesChars (ls.drop (ls.length - 10))⟩

/-- The settled value of `generateProxy(input, output)` for a given
subprocess outcome: launch failure rejects with "FFmpeg not found"; a
non-zero exit rejects with the last 10 stderr lines in the message; exit 0
resolves with the output path. -/
def generateProxyResult (outcome : SpawnOutcome) (outputPath : String) :
    Except String String :=
  match outcome with
  | .launchFailure _ => .error "FFmpeg not found"
  | .exited code stderr =>
    if code ≠ 0 then .error ("Proxy generation failed: " ++ lastTenLines stderr)
    else .ok outputPath

/-- The messages `generateProxy` passes to `log(...)`: the start line always,
then — per outcome — the launch error's message, the failure line holding the
last 10 stderr lines, or the completion line. -/
def generateProxyLogMessages (inputPath outputPath : String)
    (outcome : SpawnOutcome) : List String :=
  ("🎬 FFmpeg Start: " ++ inputPath ++ " -> " ++ outputPath) ::
  match outcome with
  | .launchFailure errMessage => ["❌ FFmpeg Error: " ++ errMessage]
  | .exited code stderr =>
    if code ≠ 0 then
      ["❌ FFmpeg Failed (code " ++ toString code ++ "):\n" ++
        lastTenLines stderr]
    else ["✅ FFmpeg Done: " ++ outputPath]

/-- The settled value of `generateThumbnail(input, output)`: launch failure
rejects with "FFmpeg not found"; a non-zero exit rejects with the constant
message "Thumbnail generation failed"; exit 0 resolves with the output
path.  The function reads nothing from the child's stderr. -/
def generateThumbnailResult (outcome : SpawnOutcome) (outputPath : String) :
    Except String String :=
  match outcome with
  | .launchFailure _ => .error "FFmpeg not found"
  | .exited code _ =>
    if code ≠ 0 then .error "Thumbnail generation failed" else .ok outputPath

/-- The messages `generateThumbnail` passes to `log(...)`: none — the
function contains no `log` call. -/
def generateThumbnailLogMessages (_ : SpawnOutcome) : List String := []

/-- Spec-side reading (§4.3) of "on failure, the last ~10 lines of the
tool's diagnostic stream are retained for operator-visible logging": the last
10 stderr lines occur inside the rejection's message or inside some logged
message. -/
def diagnosticsRetained (result : Except String String)
    (logMessages : List String) (stderr : String) : Prop :=
  (∃ e, result = Except.error e ∧
    List.IsInfix (lastTenLines stderr).data e.data) ∨
  (∃ l ∈ logMessages, List.IsInfix (lastTenLines stderr).data l.data)

/-! ## Per-clip pipeline (`server.js`: `generateProxyLocally`) -/

/-- The `processing_status = 'failed'` write of the pipeline's catch block
(which sets no artifact URL). -/
def markVideoFailed (videoId : String) (store : Store) : Store :=
  match mapGet store.videos videoId with
  | some v =>
    { store with
      videos := mapSet store.videos videoId
        { v with processing_status := "failed" } }
  | none => store

/-- Function `generateProxyLocally(videoId, filePath, projectId)` over explicit
outcomes of the two ffmpeg invocations.  The whole body sits in `try/catch`,
so the pipeline is total: any rejection of either step becomes the `failed`
status write of the catch block and no exception escapes to the host
process.  Only after both steps resolve are the two artifact URLs set and
the clip made `ready`.  (The ffmpeg output paths are modelled by the
`videoId`-derived file names used to build them.) -/
def generateProxyLocally (videoId : String)
    (proxyOutcome thumbOutcome : SpawnOutcome) (store : Store) : Store :=
  let proxyFilename := videoId ++ ".mp4"
  let thumbnailFilename := videoId ++ ".jpg"
  match generateProxyResult proxyOutcome proxyFilename with
  | .error _ => markVideoFailed videoId store
  | .ok _ =>
    match generateThumbnailResult thumbOutcome thumbnailFilename with
    | .error _ => markVideoFailed videoId store
    | .ok _ =>
      match mapGet store.videos videoId with
      | some v =>
        { store with
          videos := mapSet store.videos videoId
            { v with
              processing_status := "ready",
              proxy_url := some ("/proxies/" ++ proxyFilename),
              thumbnail_url := some ("/thumbnails/" ++ thumbnailFilename) } }
      | none => store

/-! ## Marks route (`server.js`: `POST /api/videos/:videoId/marks`)

The handler builds the mark from the request body, stores it in
`localStore.marks`, and pushes it onto the owning clip's `marks` array when
the clip exists.  It performs no validation of `in_point`/`out_point` and
always responds `{ success: true, mark }`; the only error path is a thrown
storage exception (HTTP 500), which the pure model has no analogue of. -/

/-- The response of the add-mark route: the created mark on success, or an
error payload. -/
inductive AddMarkResult
  | success (mark : Mark)
  | error (message : String)
  deriving DecidableEq, Repr

/-- The local-mode add-mark handler.  `markId` and `createdAt` stand for the
ambient `uuidv4()` and `new Date().toISOString()` calls. -/
def addMarkLocal (videoId : String) (inPoint outPoint : ℚ)
    (markId createdAt : String) (store : Store) : AddMarkResult × Store :=
  let mark : Mark :=
    { id := markId, video_id := videoId, in_point := inPoint,
      out_point := outPoint, created_at := createdAt }
  let marks' := mapSet store.marks markId mark
  let videos' :=
    match mapGet store.videos videoId with
    | some v => mapSet store.videos videoId { v with marks := v.marks ++ [mark] }
    | none => store.videos
  (.success mark, { videos := videos', marks := marks' })

/-! ## Video deletion (`server.js`: `DELETE /api/videos/:id`) -/

/-- The local-mode delete handler: when the clip exists its original file is
unlinked (outside this model) and the clip is removed from
`localStore.videos`.  Nothing touches `localStore.marks`. -/
def deleteVideoLocal (videoId : String) (store : Store) : Store :=
  match mapGet store.videos videoId with
  | some _ => { store with videos := mapDelete store.videos videoId }
  | none => store

/-- Modelled from the relational schema in `initDatabase` (`server.js`):
`DELETE FROM videos WHERE id = $1`, where `marks.video_id REFERENCES
videos(id) ON DELETE CASCADE` also removes the clip's marks. -/
def deleteVideoCascade (videoId : String) (store : Store) : Store :=
  { videos := mapDelete store.videos videoId,
    marks := store.marks.filter (fun kv => kv.2.video_id != videoId) }

/-! ## Sample fixtures used by concrete instances and witnesses -/

/-- A ready, included clip of duration 30 with no marks. -/
def clip30 : Video :=
  { id := "clip30", project_id := "p1", original_filename := "clip30.mp4",
    source := "other", duration := 30, filename_date := none,
    metadata_date := none, upload_date := 0, order_index := 0,
    included := true, processing_status := "ready", proxy_url := none,
    thumbnail_url := none, marks := [] }

/-- The mark (0, 5) on `clip30`. -/
def mark05 : Mark :=
  { id := "mk1", video_id := "clip30", in_point := 0, out_point := 5,
    created_at := "t1" }

/-- The mark (10, 12) on `clip30`. -/
def mark1012 : Mark :=
  { id := "mk2", video_id := "clip30", in_point := 10, out_point := 12,
    created_at := "t2" }

/-- Clip `clip30` after the marks (0, 5) and (10, 12) are added. -/
def clip30Marked : Video :=
  { clip30 with marks := [mark05, mark1012] }

/-- A ready, included clip of duration 20 with no marks. -/
def clip20 : Video :=
  { clip30 with id := "c20", original_filename := "c20.mp4", duration := 20 }

/-- A store holding only `clip20`, with no marks yet. -/
def store20 : Store :=
  { videos := [("c20", clip20)], marks := [] }

/-- The mark the add-mark route creates for `(in, out) = (10, 5)`. -/
def markInverted : Mark :=
  { id := "m1", video_id := "c20", in_point := 10, out_point := 5,
    created_at := "t" }

/-- The mark the add-mark route creates for `(in, out) = (5, 10)`. -/
def markFiveTen : Mark :=
  { id := "m1", video_id := "c20", in_point := 5, out_point := 10,
    created_at := "t" }

/-- A mark owned by `clip20`, for the deletion scenario. -/
def markM1 : Mark :=
  { id := "m1", video_id := "c20", in_point := 3, out_point := 8,
    created_at := "t" }

/-- A store holding `clip20` together with its mark `markM1`. -/
def storeDel : Store :=
  { videos := [("c20", { clip20 with marks := [markM1] })],
    marks := [("m1", markM1)] }

end VideoGadjo

namespace VideoGadjo

/-! ## Helper lemmas -/

theorem mapGet_mapSet {α : Type} (m : List (String × α)) (k : String) (v : α) :
    mapGet (mapSet m k v) k = some v := by
  induction m with
  | nil => simp [mapSet, mapGet]
  | cons kv rest ih =>
    obtain ⟨k', v'⟩ := kv
    by_cases h : k' = k <;> simp [mapSet, mapGet, h, ih]

theorem mapGet_mapDelete {α : Type} (m : List (String × α)) (k : String)
    (huniq : (m.map Prod.fst).Nodup) : mapGet (mapDelete m k) k = none := by
  induction m with
  | nil => simp [mapDelete, mapGet]
  | cons kv rest ih =>
    obtain ⟨k', v'⟩ := kv
    simp only [List.map_cons, List.nodup_cons] at huniq
    by_cases h : k' = k
    · subst h
      cases hres : mapGet rest k' with
      | none => simp [mapDelete, hres]
      | some w =>
        exfalso
        apply huniq.1
        clear ih huniq
        induction rest with
        | nil => simp [mapGet] at hres
        | cons kv2 rest2 ih2 =>
          obtain ⟨k2, v2⟩ := kv2
          simp only [mapGet] at hres
          by_cases h2 : k2 = k'
          · simp [h2]
          · simp only [h2, if_false] at hres
            simp [ih2 hres]
    · simp [mapDelete, h, mapGet, ih huniq.2]

theorem sortLe_trans (mode : SortMode) (a b c : Video)
    (hab : sortLe mode a b) (hbc : sortLe mode b c) : sortLe mode a c := by
  cases mode <;> simp only [sortLe, decide_eq_true_eq] at * <;>
    exact le_trans hab hbc

theorem sortLe_total (mode : SortMode) (a b : Video) :
    sortLe mode a b || sortLe mode b a := by
  cases mode <;> simp only [sortLe, Bool.or_eq_true, decide_eq_true_eq] <;>
    exact le_total _ _

theorem logsReachable_length_le {l : List LogRecord} (h : LogsReachable l) :
    l.length ≤ MAX_LOGS := by
  induction h with
  | init => simp [MAX_LOGS]
  | step e l hl ih =>
    simp only [logPush]
    split
    · simp only [List.length_dropLast, List.length_cons]
      omega
    · rename_i hlen
      simp only [List.length_cons, gt_iff_lt, not_lt] at hlen ⊢
      omega

theorem specClipContribution_of_ready {v : Video} (h : isExportReady v = true) :
    specClipContribution v = videoExportDuration v := by
  simp only [isExportReady, Bool.and_eq_true, decide_eq_true_eq] at h
  simp only [specClipContribution, videoExportDuration, h.1, h.2, and_self,
    if_true]
  by_cases hm : v.marks = []
  · simp only [hm, if_true, ne_eq, not_true_eq_false, if_false]
    by_cases hd : v.duration = 0
    · simp [hd]
    · simp [hd]
  · simp [hm]

theorem specClipContribution_of_not_ready {v : Video}
    (h : isExportReady v = false) : specClipContribution v = 0 := by
  simp only [specClipContribution]
  rw [if_neg]
  intro hc
  simp [isExportReady, hc.1, hc.2] at h

theorem exportTotalDuration_eq_sum (vs : List Video) :
    exportTotalDuration vs = (vs.map specClipContribution).sum := by
  induction vs with
  | nil => rfl
  | cons v vs ih =>
    simp only [exportTotalDuration, readyVideos] at ih ⊢
    by_cases h : isExportReady v = true
    · rw [List.filter_cons_of_pos h]
      simp only [List.map_cons, List.sum_cons, ih,
        specClipContribution_of_ready h]
    · rw [List.filter_cons_of_neg (by simpa using h)]
      have h0 : specClipContribution v = 0 :=
        specClipContribution_of_not_ready (by simpa using h)
      simp only [List.map_cons, List.sum_cons, ih, h0, zero_add]

theorem mem_readyVideos_iff (vs : List Video) (v : Video) :
    v ∈ readyVideos vs ↔
      v ∈ vs ∧ v.processing_status = "ready" ∧ v.included = true := by
  simp [readyVideos, List.mem_filter, isExportReady, and_assoc]

/-- Claim C10. The in-memory debug log buffer is bounded: after every `log`
call on a reachable buffer, `memoryLogs` has at most `MAX_LOGS = 100`
entries, the newest entry is at the front, and when the insertion would
exceed the bound the oldest (last) entry is discarded. -/
theorem log_buffer_bounded (l : List LogRecord) (e : LogRecord)
    (h : LogsReachable l) :
    (logPush e l).length ≤ MAX_LOGS ∧
    (logPush e l).head? = some e ∧
    ((e :: l).length > MAX_LOGS → logPush e l = (e :: l).dropLast) := by
  refine ⟨logsReachable_length_le (.step e l h), ?_, ?_⟩
  · simp only [logPush]
    split
    · rename_i hover
      have hne : l ≠ [] := by
        intro hnil
        subst hnil
        simp [MAX_LOGS] at hover
      simp [List.dropLast_cons_of_ne_nil hne]
    · simp
  · intro hover
    simp only [logPush]
    split
    · rfl
    · rename_i hc
      exact absurd hover hc

/-- Witness for C10 at a concrete buffer: the empty (initial) buffer and a
concrete entry. -/
theorem log_buffer_bounded_witness :
    (logPush ⟨"t", "info", "m"⟩ []).length ≤ MAX_LOGS ∧
    (logPush ⟨"t", "info", "m"⟩ []).head? = some ⟨"t", "info", "m"⟩ ∧
    (([⟨"t", "info", "m"⟩] : List LogRecord).length > MAX_LOGS →
      logPush ⟨"t", "info", "m"⟩ [] = ([⟨"t", "info", "m"⟩] : List LogRecord).dropLast) :=
  log_buffer_bounded [] ⟨"t", "info", "m"⟩ LogsReachable.init

/-- Claim C4. `getBestDate` precedence: with a technical metadata date present
the result is that date (whatever the filename date is); with none, a present
filename date is returned; with neither, the always-present upload date. -/
theorem getBestDate_precedence (v : Video) (t u : ℤ) :
    getBestDate { v with metadata_date := some t } = t ∧
    getBestDate { v with metadata_date := none, filename_date := some u } = u ∧
    getBestDate { v with metadata_date := none, filename_date := none } =
      v.upload_date :=
  ⟨rfl, rfl, rfl⟩

/-- Claim C5. Sorting by any mode is stable and idempotent: re-sorting the
sorted list yields the identical list, and a pair of clips whose keys compare
equal (each `≤` the other) keeps its prior relative order. -/
theorem sortVideos_stable_idempotent (mode : SortMode) (vs : List Video) :
    sortVideos mode (sortVideos mode vs) = sortVideos mode vs ∧
    ∀ a b : Video, sortLe mode a b → sortLe mode b a →
      List.Sublist [a, b] vs → List.Sublist [a, b] (sortVideos mode vs) := by
  constructor
  · exact List.mergeSort_of_sorted
      (List.sorted_mergeSort (sortLe_trans mode) (sortLe_total mode) vs)
  · intro a b hab _ hsub
    exact List.pair_sublist_mergeSort (sortLe_trans mode) (sortLe_total mode)
      hab hsub

/-- Witness for C5 at a concrete input: two clips with equal manual order
index keep their order, and the sort is idempotent there. -/
theorem sortVideos_stable_idempotent_witness :
    sortVideos .manual (sortVideos .manual [clip30, clip30Marked]) =
      sortVideos .manual [clip30, clip30Marked] ∧
    List.Sublist [clip30, clip30Marked] (sortVideos .manual [clip30, clip30Marked]) :=
  ⟨(sortVideos_stable_idempotent .manual [clip30, clip30Marked]).1,
   (sortVideos_stable_idempotent .manual [clip30, clip30Marked]).2
     clip30 clip30Marked (by decide) (by decide)
     (List.Sublist.refl [clip30, clip30Marked])⟩

/-- Claim C3. The export plan counts exactly the included, ready clips; each of
them contributes its marks' durations when it has marks and its whole
duration otherwise; others contribute nothing.  Concretely: one ready
included markless clip of duration 30 gives one clip, zero marks and a 30 s
total; after adding marks (0,5) and (10,12) the plan has two marks and a 7 s
total with no whole-clip fallback. -/
theorem exportPlan_marks_or_whole_clip :
    (∀ vs : List Video,
      exportTotalDuration vs = (vs.map specClipContribution).sum) ∧
    (∀ (vs : List Video) (v : Video), v ∈ readyVideos vs ↔
      v ∈ vs ∧ v.processing_status = "ready" ∧ v.included = true) ∧
    readyVideos [clip30] = [clip30] ∧
    exportTotalMarks [clip30] = 0 ∧
    exportTotalDuration [clip30] = 30 ∧
    readyVideos [clip30Marked] = [clip30Marked] ∧
    exportTotalMarks [clip30Marked] = 2 ∧
    exportTotalDuration [clip30Marked] = 7 := by
  refine ⟨exportTotalDuration_eq_sum, mem_readyVideos_iff, ?_, ?_, ?_, ?_, ?_, ?_⟩
  · rfl
  · rfl
  · norm_num [exportTotalDuration, readyVideos, videoExportDuration, clip30,
      isExportReady, List.filter]
  · rfl
  · rfl
  · norm_num [exportTotalDuration, readyVideos, videoExportDuration,
      clip30Marked, clip30, mark05, mark1012, markDuration, isExportReady,
      List.filter]
    exact List.cons_ne_nil _ _

/-- Claim C1, counterexample. `addMark(clip, in=10, out=5)` on a clip of
duration 20 does *not* return `Error("InvalidRange")`: the handler validates
nothing, responds success with the inverted mark, stores it in
`localStore.marks`, and appends it to the clip's `marks` array (which was
empty before the call). -/
theorem addMark_inverted_range_accepted :
    (addMarkLocal "c20" 10 5 "m1" "t" store20).1 =
      AddMarkResult.success markInverted ∧
    (addMarkLocal "c20" 10 5 "m1" "t" store20).2.marks =
      [("m1", markInverted)] ∧
    store20.marks = [] ∧
    (mapGet (addMarkLocal "c20" 10 5 "m1" "t" store20).2.videos "c20").map
      Video.marks = some [markInverted] ∧
    (mapGet store20.videos "c20").map Video.marks = some [] := by
  refine ⟨rfl, ?_, rfl, ?_, rfl⟩ <;> decide

/-- Claim C1, amended. The add-mark route never validates the range: for every
clip id and every pair `(in, out)` — including `out ≤ in` — it responds
success with the created mark and stores it; on a clip of duration 20,
`addMark(clip, in=5, out=10)` succeeds and the created mark's
`out_point - in_point` is exactly 5. -/
theorem addMark_always_succeeds :
    (∀ (videoId : String) (ip op : ℚ) (mid ts : String) (s : Store),
      (addMarkLocal videoId ip op mid ts s).1 =
        AddMarkResult.success
          { id := mid, video_id := videoId, in_point := ip, out_point := op,
            created_at := ts } ∧
      mapGet (addMarkLocal videoId ip op mid ts s).2.marks mid =
        some
          { id := mid, video_id := videoId, in_point := ip, out_point := op,
            created_at := ts }) ∧
    (addMarkLocal "c20" 5 10 "m1" "t" store20).1 =
      AddMarkResult.success markFiveTen ∧
    markDuration markFiveTen = 5 := by
  refine ⟨fun videoId ip op mid ts s => ⟨rfl, mapGet_mapSet _ _ _⟩, rfl, ?_⟩
  norm_num [markDuration, markFiveTen]

/-- Claim C8. `classifySource` matches the (uppercased, hence
case-insensitive) filename against the fixed ordered convention table,
returns the category of the first convention that matches, and returns
`other` if and only if no convention matches.  The concrete conjuncts
exercise one filename per convention (one of them lowercased) and a
non-matching one. -/
theorem detectVideoSource_first_match (f : String) :
    detectVideoSource f = classifyBySpec sourceConventions (upperName f) ∧
    (detectVideoSource f = "other" ↔
      ∀ pc ∈ sourceConventions, matchesAtStart pc.1 (upperName f) = false) ∧
    detectVideoSource "VID_20230101_120000.mp4" = "android" ∧
    detectVideoSource "img_1234.mov" = "iphone" ∧
    detectVideoSource "GH012345.MP4" = "gopro" ∧
    detectVideoSource "DJI_0001.MP4" = "dji" ∧
    detectVideoSource "VID-20230101-WA0001.mp4" = "whatsapp" ∧
    detectVideoSource "holiday.mp4" = "other" := by
  refine ⟨rfl, ?_, by decide, by decide, by decide, by decide, by decide,
    by decide⟩
  by_cases h1 : matchesAtStart patAndroid (upperName f) <;>
  by_cases h2 : matchesAtStart patIphone (upperName f) <;>
  by_cases h3 : matchesAtStart patGopro (upperName f) <;>
  by_cases h4 : matchesAtStart patDjiAnchor (upperName f) <;>
  by_cases h5 : matchesAtStart patWhatsAppAnchor (upperName f) <;>
  simp [detectVideoSource, sourceConventions, h1, h2, h3, h4, h5]

/-- Claim C2, code bug. `extractFilenameTimestamp` does not fail closed on
calendar-invalid dates: for `VID_20230230_120000` (Feb 30) the first pattern
matches and `new Date(2023, 1, 30, 12, 0, 0)` rolls over to
2023-03-02T12:00:00 (time value 1677758400000 ms) instead of producing
`NaN`, so the function returns that date rather than `null`; likewise month
13 rolls into January of the next year.  The code's own `isNaN` guard can
never fire for in-range numeric components. -/
theorem parseFilenameDate_rolls_over_invalid_date :
    parseFilenameDate "VID_20230230_120000.mp4" =
      some (jsDateValue 2023 1 30 12 0 0) ∧
    jsDateValue 2023 1 30 12 0 0 = jsDateValue 2023 2 2 12 0 0 ∧
    jsDateValue 2023 2 2 12 0 0 = 1677758400000 ∧
    (parseFilenameDate "VID_20230230_120000.mp4").isSome = true ∧
    parseFilenameDate "VID_20231301_120000.mp4" =
      some (jsDateValue 2024 0 1 12 0 0) := by
  exact ⟨by decide, by decide, by decide, by decide, by decide⟩

/-- Claim C6. A clip whose `makeProxy` invocation fails — subprocess launch
failure or non-zero exit — ends in `failed` status with neither proxy nor
thumbnail location set: the pipeline's `try/catch` turns the rejection into
the status write (the embedded pipeline is a total function on the store, so
no exception escapes to the host process), and the failed clip then passes
no export filter, so it is absent from every export plan regardless of its
marks. -/
theorem makeProxy_failure_contained (videoId : String)
    (pOut tOut : SpawnOutcome) (store : Store) (v : Video)
    (hfail : (∃ m, pOut = SpawnOutcome.launchFailure m) ∨
      ∃ c st, pOut = SpawnOutcome.exited c st ∧ c ≠ 0)
    (hv : mapGet store.videos videoId = some v)
    (hpu : v.proxy_url = none) (htu : v.thumbnail_url = none) :
    mapGet (generateProxyLocally videoId pOut tOut store).videos videoId =
      some { v with processing_status := "failed" } ∧
    ({ v with processing_status := "failed" } : Video).proxy_url = none ∧
    ({ v with processing_status := "failed" } : Video).thumbnail_url = none ∧
    ∀ vs : List Video,
      ({ v with processing_status := "failed" } : Video) ∉ readyVideos vs := by
  have herr : ∃ e,
      generateProxyResult pOut (videoId ++ ".mp4") = Except.error e := by
    rcases hfail with ⟨m, rfl⟩ | ⟨c, st, rfl, hcz⟩
    · exact ⟨_, rfl⟩
    · exact ⟨"Proxy generation failed: " ++ lastTenLines st,
        by simp [generateProxyResult, hcz]⟩
  obtain ⟨e, he⟩ := herr
  refine ⟨?_, hpu, htu, ?_⟩
  · simp only [generateProxyLocally, he, markVideoFailed, hv]
    exact mapGet_mapSet _ _ _
  · intro vs hmem
    have hready := ((mem_readyVideos_iff vs _).mp hmem).2.1
    simp at hready

/-- Witness for C6 at a concrete input: a launch failure of `makeProxy` on
the store holding `clip20`. -/
theorem makeProxy_failure_contained_witness :
    mapGet (generateProxyLocally "c20"
        (SpawnOutcome.launchFailure "spawn ffmpeg ENOENT")
        (SpawnOutcome.exited 0 "") store20).videos "c20" =
      some { clip20 with processing_status := "failed" } ∧
    ({ clip20 with processing_status := "failed" } : Video).proxy_url = none ∧
    ({ clip20 with processing_status := "failed" } : Video).thumbnail_url =
      none ∧
    ∀ vs : List Video,
      ({ clip20 with processing_status := "failed" } : Video) ∉
        readyVideos vs :=
  makeProxy_failure_contained "c20" (SpawnOutcome.launchFailure "spawn ffmpeg ENOENT")
    (SpawnOutcome.exited 0 "") store20 clip20
    (Or.inl ⟨"spawn ffmpeg ENOENT", rfl⟩) (by decide) rfl rfl

/-- Claim C9, amended. A subprocess launch failure is reported distinctly from
a non-zero exit for both `makeProxy` and `makeThumbnail`.  On a non-zero
exit, `makeProxy` retains the last 10 lines of stderr in its rejection
message and in a logged message (the spec's retention predicate holds for
it); `makeThumbnail` reads no stderr: its rejection message is a constant
distinct from the launch-failure message and it logs nothing. -/
theorem transcoder_failure_reporting (c : ℤ) (st m ip out : String)
    (hc : c ≠ 0) :
    generateProxyResult (.launchFailure m) out = .error "FFmpeg not found" ∧
    generateProxyResult (.exited c st) out =
      .error ("Proxy generation failed: " ++ lastTenLines st) ∧
    "Proxy generation failed: " ++ lastTenLines st ≠ "FFmpeg not found" ∧
    diagnosticsRetained (generateProxyResult (.exited c st) out)
      (generateProxyLogMessages ip out (.exited c st)) st ∧
    generateThumbnailResult (.launchFailure m) out =
      .error "FFmpeg not found" ∧
    generateThumbnailResult (.exited c st) out =
      .error "Thumbnail generation failed" ∧
    ("Thumbnail generation failed" : String) ≠ "FFmpeg not found" ∧
    generateThumbnailLogMessages (.exited c st) = [] := by
  refine ⟨rfl, by simp [generateProxyResult, hc], ?_, ?_,
    rfl, by simp [generateThumbnailResult, hc], by decide, rfl⟩
  · intro h
    have hlen := congrArg String.length h
    rw [String.length_append] at hlen
    have h1 : "Proxy generation failed: ".length = 25 := rfl
    have h2 : "FFmpeg not found".length = 16 := rfl
    omega
  · left
    refine ⟨"Proxy generation failed: " ++ lastTenLines st,
      by simp [generateProxyResult, hc], ?_⟩
    exact ⟨"Proxy generation failed: ".data, [], by simp [String.data_append]⟩

/-- Witness for C9 (amended) at a concrete input: exit code 1 with a
two-line stderr. -/
theorem transcoder_failure_reporting_witness :
    generateProxyResult (.launchFailure "spawn ffmpeg ENOENT") "p.mp4" =
      .error "FFmpeg not found" ∧
    generateProxyResult (.exited 1 "e1\ne2") "p.mp4" =
      .error ("Proxy generation failed: " ++ lastTenLines "e1\ne2") ∧
    "Proxy generation failed: " ++ lastTenLines "e1\ne2" ≠ "FFmpeg not found" ∧
    diagnosticsRetained (generateProxyResult (.exited 1 "e1\ne2") "p.mp4")
      (generateProxyLogMessages "in.mov" "p.mp4" (.exited 1 "e1\ne2"))
      "e1\ne2" ∧
    generateThumbnailResult (.launchFailure "spawn ffmpeg ENOENT") "p.mp4" =
      .error "FFmpeg not found" ∧
    generateThumbnailResult (.exited 1 "e1\ne2") "p.mp4" =
      .error "Thumbnail generation failed" ∧
    ("Thumbnail generation failed" : String) ≠ "FFmpeg not found" ∧
    generateThumbnailLogMessages (.exited 1 "e1\ne2") = [] :=
  transcoder_failure_reporting 1 "e1\ne2" "spawn ffmpeg ENOENT" "in.mov"
    "p.mp4" (by decide)

/-- Claim C9, counterexample. For `makeThumbnail` the claimed retention fails:
on a non-zero exit with stderr "frame error\ncodec missing", the rejection
message is the constant "Thumbnail generation failed", no log message is
emitted, and the last-10-line diagnostic is retained nowhere. -/
theorem thumbnail_diagnostics_not_retained :
    generateThumbnailResult (.exited 1 "frame error\ncodec missing") "t.jpg" =
      .error "Thumbnail generation failed" ∧
    generateThumbnailLogMessages (.exited 1 "frame error\ncodec missing") =
      [] ∧
    ¬ diagnosticsRetained
        (generateThumbnailResult (.exited 1 "frame error\ncodec missing")
          "t.jpg")
        (generateThumbnailLogMessages (.exited 1 "frame error\ncodec missing"))
        "frame error\ncodec missing" := by
  refine ⟨rfl, rfl, ?_⟩
  intro h
  rcases h with ⟨e, he, hinf⟩ | ⟨l, hl, _⟩
  · simp only [generateThumbnailResult, show (1 : ℤ) ≠ 0 by decide, ne_eq,
      not_false_eq_true, if_true, Except.error.injEq] at he
    subst he
    exact absurd hinf (by decide)
  · simp [generateThumbnailLogMessages] at hl

/-- Claim C7. Deleting a clip in local mode leaves its marks orphaned in
`localStore.marks`: after `DELETE /api/videos/c20` on a store where mark `m1`
is owned by clip `c20`, the clip is gone but the mark is still present — in
contrast with the relational schema, whose `ON DELETE CASCADE` removes it. -/
theorem deleteVideo_leaves_orphan_marks :
    markM1.video_id = "c20" ∧
    mapGet (deleteVideoLocal "c20" storeDel).videos "c20" = none ∧
    mapGet (deleteVideoLocal "c20" storeDel).marks "m1" = some markM1 ∧
    mapGet (deleteVideoCascade "c20" storeDel).marks "m1" = none := by
  refine ⟨rfl, ?_, ?_, ?_⟩ <;> decide

end VideoGadjo
